import Mathlib

/-!
Shallow embedding of the redis-py server core (RESP codec, keyspace and
command handlers) and proofs about its command semantics.

Conventions of the embedding:
* bytes are modelled as `List Nat` (`ByteS`), one entry per byte;
* wall-clock time (`time.time()`) is an explicit rational parameter `now`
  threaded through every handler; Python float arithmetic on expiry times
  (`EX` adds an integer, `PX` adds `ms / 1000.0`) is modelled exactly over `ℚ`;
* CPython exceptions that escape a handler are explicit outcomes
  (`HOut.raiseE`), including `CommandError` raised via `abort` and raw
  exceptions such as `IndexError` / `NameError` / `ValueError`;
* string payloads are kept in the canonical byte form produced by the
  `RedisStringObject` constructor (which re-encodes an `int` payload as its
  decimal ASCII form before storing).
-/

set_option maxRecDepth 8192

/-- Byte strings: one `Nat` per byte. -/
abbrev ByteS := List Nat

/-- ASCII byte string literal helper. -/
def bs (s : String) : ByteS := s.data.map Char.toNat

/-- ASCII lower-casing of one byte (Python `bytes.lower`). -/
def lowerByte (c : Nat) : Nat := if 65 ≤ c ∧ c ≤ 90 then c + 32 else c

/-- ASCII upper-casing of one byte (Python `bytes.upper`). -/
def upperByte (c : Nat) : Nat := if 97 ≤ c ∧ c ≤ 122 then c - 32 else c

/-- Python `bytes.lower()`. -/
def lowerB (b : ByteS) : ByteS := b.map lowerByte

/-- Python `bytes.upper()`. -/
def upperB (b : ByteS) : ByteS := b.map upperByte

/-- Python `bytes.decode()` for the ASCII range (used for error messages). -/
def asString (b : ByteS) : String := String.mk (b.map Char.ofNat)

/-- Bytes treated as whitespace by Python `int()` parsing. -/
def isPySpace (c : Nat) : Bool := c == 32 || c == 9 || c == 10 || c == 13 || c == 11 || c == 12

/-- Strip leading and trailing Python whitespace. -/
def stripPyWs (b : ByteS) : ByteS :=
  ((b.dropWhile isPySpace).reverse.dropWhile isPySpace).reverse

/-- Value of a non-empty all-digit byte string, `none` otherwise. -/
def digitsVal (l : ByteS) : Option Nat :=
  if l = [] then none
  else if l.all (fun c => decide (48 ≤ c ∧ c ≤ 57)) then
    some (l.foldl (fun a c => a * 10 + (c - 48)) 0)
  else none

/-- Python `int(b)` on a byte string: optional surrounding whitespace, an
optional sign, then decimal digits.  `none` models the `ValueError` raised on
any other input. -/
def parsePyInt (b : ByteS) : Option Int :=
  match stripPyWs b with
  | 43 :: r => (digitsVal r).map (fun n => (n : Int))
  | 45 :: r => (digitsVal r).map (fun n => -(n : Int))
  | r => (digitsVal r).map (fun n => (n : Int))

/-- Decimal ASCII encoding of a natural number (Python `str(n).encode()`). -/
def natToBytes (n : Nat) : ByteS := (Nat.toDigits 10 n).map Char.toNat

/-- Decimal ASCII encoding of an integer (Python `str(n).encode()`). -/
def intToBytes (n : Int) : ByteS :=
  if n < 0 then 45 :: natToBytes n.natAbs else natToBytes n.toNat

/-- The eight bits of a byte, most significant first (`bitarray.frombytes`
uses big-endian bit order). -/
def byteToBits (c : Nat) : List Bool :=
  [decide (c / 128 % 2 = 1), decide (c / 64 % 2 = 1), decide (c / 32 % 2 = 1),
   decide (c / 16 % 2 = 1), decide (c / 8 % 2 = 1), decide (c / 4 % 2 = 1),
   decide (c / 2 % 2 = 1), decide (c % 2 = 1)]

/-- `bitarray.frombytes`: the bit sequence of a byte string. -/
def bytesToBits : ByteS → List Bool
  | [] => []
  | c :: t => byteToBits c ++ bytesToBits t

/-- Numeric value of a bit (Python `int(bit)`). -/
def bitVal (b : Bool) : Nat := if b then 1 else 0

/-- The byte with the given eight bits, most significant first. -/
def byteOfBits (a b c d e f g h : Bool) : Nat :=
  128 * bitVal a + 64 * bitVal b + 32 * bitVal c + 16 * bitVal d +
    8 * bitVal e + 4 * bitVal f + 2 * bitVal g + bitVal h

/-- `bitarray.tobytes`: pack bits into bytes, zero-padding the final byte. -/
def bitsToBytes : List Bool → ByteS
  | [] => []
  | [a] => [byteOfBits a false false false false false false false]
  | [a, b] => [byteOfBits a b false false false false false false]
  | [a, b, c] => [byteOfBits a b c false false false false false]
  | [a, b, c, d] => [byteOfBits a b c d false false false false]
  | [a, b, c, d, e] => [byteOfBits a b c d e false false false]
  | [a, b, c, d, e, f] => [byteOfBits a b c d e f false false]
  | [a, b, c, d, e, f, g] => [byteOfBits a b c d e f g false]
  | a :: b :: c :: d :: e :: f :: g :: h :: rest =>
    byteOfBits a b c d e f g h :: bitsToBytes rest

/-- Python sequence indexing `l[i]` with negative-index wrap-around;
`none` models the `IndexError` raised when `i` is out of range. -/
def pyBitGet (l : List Bool) (i : Int) : Option Bool :=
  if 0 ≤ i ∧ i < (l.length : Int) then l.get? i.toNat
  else if -(l.length : Int) ≤ i ∧ i < 0 then l.get? (l.length - (-i).toNat)
  else none

/-- Python sequence assignment `l[i] = v` with negative-index wrap-around;
`none` models the `IndexError` raised when `i` is out of range. -/
def pyBitSet (l : List Bool) (v : Bool) (i : Int) : Option (List Bool) :=
  if 0 ≤ i ∧ i < (l.length : Int) then some (l.set i.toNat v)
  else if -(l.length : Int) ≤ i ∧ i < 0 then some (l.set (l.length - (-i).toNat) v)
  else none

/-- Python slice `b[0:j]` (a negative stop counts from the end). -/
def pyTake (l : ByteS) (j : Int) : ByteS :=
  if j < 0 then l.take (l.length - (-j).toNat) else l.take j.toNat

/-- Stored value payloads: `RedisStringObject` (canonical byte form) or
`RedisListObject`. -/
inductive RVal where
  | str (b : ByteS)
  | list (l : List ByteS)
  deriving DecidableEq, Repr

/-- A stored value object together with its optional absolute expiry time
(`RedisObject._expire_time`, seconds since epoch). -/
structure RNode where
  val : RVal
  expire : Option ℚ
  deriving DecidableEq, Repr

/-- `RedisObject.expired()`: expiry is set and current time strictly
exceeds it. -/
def nodeExpired (n : RNode) (now : ℚ) : Bool :=
  match n.expire with
  | none => false
  | some e => decide (e < now)

/-- The keyspace: a finite map from key bytes to value objects, modelled as
an association list with unique keys (a Python `dict`). -/
abbrev KeySpace := List (ByteS × RNode)

/-- Dictionary lookup `key_space[k]`. -/
def ksGet : KeySpace → ByteS → Option RNode
  | [], _ => none
  | (a, v) :: t, k => if a = k then some v else ksGet t k

/-- Membership test `k in key_space`.  Note: a plain `dict` membership test,
it does NOT consult expiry. -/
def ksContains (ks : KeySpace) (k : ByteS) : Bool := (ksGet ks k).isSome

/-- Dictionary store `key_space[k] = v` (replaces any existing entry). -/
def ksSet : KeySpace → ByteS → RNode → KeySpace
  | [], k, v => [(k, v)]
  | (a, w) :: t, k, v => if a = k then (a, v) :: t else (a, w) :: ksSet t k v

/-- Dictionary deletion `del key_space[k]` (no-op when absent; the callers
catch the `KeyError`). -/
def ksDel : KeySpace → ByteS → KeySpace
  | [], _ => []
  | (a, w) :: t, k => if a = k then t else (a, w) :: ksDel t k

/-- Client transaction state (`RedisClientBase.STAT_NORMAL` / `STAT_MULTI`;
`STAT_EXEC` is declared in the source but never used). -/
inductive CStat where
  | normal
  | multi
  deriving DecidableEq, Repr

/-- The state a command handler acts on: the selected database keyspace plus
the per-client transaction state and MULTI queue. -/
structure Sys where
  ks : KeySpace
  stat : CStat
  queue : List (List ByteS)
  deriving DecidableEq, Repr

/-- Typed RESP replies (the `RedisSerializationObject` hierarchy):
simple string, error (kind, message), integer, bulk string (`none` = nil)
and array. -/
inductive Reply where
  | simple (s : ByteS)
  | error (kind msg : String)
  | int (n : Int)
  | bulk (b : Option ByteS)
  | array (rs : List Reply)

/-- Python exceptions that can escape a handler. -/
inductive PyExc where
  | cmdError (kind msg : String)
  | notFound (msg : String)
  | pyerr (nm : String)
  | quitExc
  deriving DecidableEq, Repr

/-- Python values returned by handlers (the reply coercion input). -/
inductive PyVal where
  | pynone
  | pybool (b : Bool)
  | pyint (n : Int)
  | pybytes (b : ByteS)
  | pyreplies (rs : List Reply)

/-- Outcome of a handler body: a returned value or a raised exception. -/
inductive HOut where
  | ret (v : PyVal)
  | raiseE (e : PyExc)

/-- The `WRONGTYPE` abort shared by the string/list handlers. -/
def wrongTypeErr : HOut :=
  .raiseE (.cmdError "WRONGTYPE" "Operation against a key holding the wrong kind of value")

/-- `get_handler` (`redis/server/command/string_command.py:444`): nil when
absent; lazily delete and return nil when expired; `WRONGTYPE` on a list;
else the byte value. -/
def get_handler (now : ℚ) (argv : List ByteS) (sys : Sys) : HOut × Sys :=
  let key := argv.getD 1 []
  match ksGet sys.ks key with
  | none => (.ret .pynone, sys)
  | some node =>
    if nodeExpired node now then (.ret .pynone, { sys with ks := ksDel sys.ks key })
    else
      match node.val with
      | .str b => (.ret (.pybytes b), sys)
      | .list _ => (wrongTypeErr, sys)

/-- `strlen_handler` (`string_command.py:790`): 0 when absent, `WRONGTYPE`
on a list, else the byte length.  It performs no expiry check. -/
def strlen_handler (_now : ℚ) (argv : List ByteS) (sys : Sys) : HOut × Sys :=
  let key := argv.getD 1 []
  match ksGet sys.ks key with
  | none => (.ret (.pyint 0), sys)
  | some node =>
    match node.val with
    | .str b => (.ret (.pyint b.length), sys)
    | .list _ => (wrongTypeErr, sys)

/-- Result of the SET option parsing loop: parsed state or the `syntax
error` abort. -/
inductive SetOptsOut where
  | ok (e : Option ℚ) (nx xx : Bool)
  | err
  deriving DecidableEq, Repr

/-- The option loop of `set_handler` (`string_command.py:267`): left-to-right;
`EX`/`PX` initialise the expiry accumulator to `now` on first use and add
`int(arg)` respectively `int(arg) / 1000.0` to it; `NX`/`XX` set flags;
anything else (or a trailing `EX`/`PX`, or an unparsable integer) aborts with
`syntax error`. -/
def setOptsLoop (now : ℚ) : List ByteS → Option ℚ → Bool → Bool → SetOptsOut
  | [], e, nx, xx => .ok e nx xx
  | a :: rest, e, nx, xx =>
    if lowerB a = bs "ex" then
      match rest with
      | [] => .err
      | s :: r =>
        match parsePyInt s with
        | none => .err
        | some k => setOptsLoop now r (some (e.getD now + (k : ℚ))) nx xx
    else if lowerB a = bs "px" then
      match rest with
      | [] => .err
      | s :: r =>
        match parsePyInt s with
        | none => .err
        | some k => setOptsLoop now r (some (e.getD now + (k : ℚ) / 1000)) nx xx
    else if lowerB a = bs "nx" then setOptsLoop now rest e true xx
    else if lowerB a = bs "xx" then setOptsLoop now rest e nx true
    else .err

/-- `value = int(value)` when parseable, followed by the
`RedisStringObject` constructor, which stores `str(value).encode()`:
an integer-parsable payload is canonicalised to decimal ASCII. -/
def setCanonical (v : ByteS) : ByteS :=
  match parsePyInt v with
  | some n => intToBytes n
  | none => v

/-- `set_handler` (`string_command.py:247`). -/
def set_handler (now : ℚ) (argv : List ByteS) (sys : Sys) : HOut × Sys :=
  let key := argv.getD 1 []
  let value := argv.getD 2 []
  match setOptsLoop now (argv.drop 3) none false false with
  | .err => (.raiseE (.cmdError "ERR" "syntax error"), sys)
  | .ok e nx xx =>
    if nx && xx then (.raiseE (.cmdError "ERR" "syntax error"), sys)
    else if nx && ksContains sys.ks key then (.ret .pynone, sys)
    else if xx && !ksContains sys.ks key then (.ret .pynone, sys)
    else (.ret (.pybool true), { sys with ks := ksSet sys.ks key ⟨.str (setCanonical value), e⟩ })

/-- `setbit_handler` (`string_command.py:314`).  Note the grow condition
`len(ba) < offset` (line 349): when the offset equals the current bit length
the bitarray is not grown and the assignment `ba[offset] = value` raises an
uncaught `IndexError`.  For an absent key an empty string object is stored
before the assignment is attempted. -/
def setbit_handler (_now : ℚ) (argv : List ByteS) (sys : Sys) : HOut × Sys :=
  let key := argv.getD 1 []
  let offv := argv.getD 2 []
  let valv := argv.getD 3 []
  match ksGet sys.ks key with
  | some ⟨.list _, _⟩ => (wrongTypeErr, sys)
  | _ =>
    match parsePyInt offv, parsePyInt valv with
    | some off, some v =>
      let st :=
        match ksGet sys.ks key with
        | some node => (bytesToBits (match node.val with | .str b => b | .list _ => []), sys)
        | none => ([], { sys with ks := ksSet sys.ks key ⟨.str [], none⟩ })
      let ba := st.1
      let sys1 := st.2
      let ba1 :=
        if (ba.length : Int) < off then ba ++ List.replicate (off + 1 - ba.length).toNat false
        else ba
      match pyBitSet ba1 (decide (v ≠ 0)) off with
      | none => (.raiseE (.pyerr "IndexError"), sys1)
      | some ba2 =>
        match ksGet sys1.ks key with
        | some node =>
          (.ret (.pybool true),
           { sys1 with ks := ksSet sys1.ks key { node with val := .str (bitsToBytes ba2) } })
        | none => (.raiseE (.pyerr "KeyError"), sys1)
    | _, _ => (.raiseE (.cmdError "ERR" "bit offset is not an integer or out of range"), sys)

/-- `getbit_handler` (`string_command.py:468`): parse the offset, 0 when the
key is absent, `WRONGTYPE` on a list, else index the bit sequence, with the
`IndexError` of an out-of-range offset caught and turned into 0.  It never
mutates the keyspace. -/
def getbit_handler (_now : ℚ) (argv : List ByteS) (sys : Sys) : HOut × Sys :=
  let key := argv.getD 1 []
  let offv := argv.getD 2 []
  match parsePyInt offv with
  | none => (.raiseE (.cmdError "ERR" "bit offset is not an integer or out of range"), sys)
  | some off =>
    match ksGet sys.ks key with
    | none => (.ret (.pyint 0), sys)
    | some node =>
      match node.val with
      | .list _ => (wrongTypeErr, sys)
      | .str b =>
        match pyBitGet (bytesToBits b) off with
        | some bit => (.ret (.pyint (bitVal bit)), sys)
        | none => (.ret (.pyint 0), sys)

/-- `setrange_handler` (`string_command.py:401`).  When the offset exceeds
the current length the value is zero-padded and `value` appended; otherwise
the stored bytes are cut to `stor_value[0:offset + 1]` (keeping one byte too
many and dropping the old suffix) before `value` is appended. -/
def setrange_handler (_now : ℚ) (argv : List ByteS) (sys : Sys) : HOut × Sys :=
  let key := argv.getD 1 []
  let offv := argv.getD 2 []
  let value := argv.getD 3 []
  match parsePyInt offv with
  | none => (.raiseE (.cmdError "ERR" "value is not an integer or out of range"), sys)
  | some off =>
    match ksGet sys.ks key with
    | some ⟨.list _, _⟩ => (wrongTypeErr, sys)
    | some ⟨.str old, ex⟩ =>
      let newv :=
        if (old.length : Int) < off then
          old ++ List.replicate (off - old.length).toNat 0 ++ value
        else pyTake old (off + 1) ++ value
      (.ret (.pyint newv.length), { sys with ks := ksSet sys.ks key ⟨.str newv, ex⟩ })
    | none =>
      let newv :=
        if (0 : Int) < off then List.replicate off.toNat 0 ++ value
        else pyTake [] (off + 1) ++ value
      (.ret (.pyint newv.length), { sys with ks := ksSet sys.ks key ⟨.str newv, none⟩ })

/-- `linsert` (`redis/server/command/list_command.py:344`): syntax check on
BEFORE/AFTER, `None` when the key is absent, `WRONGTYPE` on a string, `None`
when the pivot is absent (the `ValueError` of `list.index` is caught and
`None` returned — the docstring promises -1), and `RedisListObject.insert`
raises an uncaught `IndexError` when the insertion index equals the length
(inserting AFTER the last element). -/
def linsert (_now : ℚ) (argv : List ByteS) (sys : Sys) : HOut × Sys :=
  let key := argv.getD 1 []
  let op := upperB (argv.getD 2 [])
  let pivot := argv.getD 3 []
  let value := argv.getD 4 []
  if op ≠ bs "BEFORE" ∧ op ≠ bs "AFTER" then
    (.raiseE (.cmdError "ERR" "syntax error"), sys)
  else
    match ksGet sys.ks key with
    | none => (.ret .pynone, sys)
    | some node =>
      match node.val with
      | .str _ => (wrongTypeErr, sys)
      | .list l =>
        match l.indexOf? pivot with
        | none => (.ret .pynone, sys)
        | some idx =>
          let i := if op = bs "BEFORE" then idx else idx + 1
          if l.length ≤ i then (.raiseE (.pyerr "IndexError"), sys)
          else
            (.ret (.pyint (l.length + 1)),
             { sys with ks := ksSet sys.ks key { node with val := .list (l.insertIdx i value) } })

/-- `del_handler` (`redis/server_impl/misc_command.py:12`): iterates over
ALL of `argv` — including `argv[0]`, the command name itself — deleting each
present key and counting the deletions. -/
def del_handler (_now : ℚ) (argv : List ByteS) (sys : Sys) : HOut × Sys :=
  let res := argv.foldl
    (fun (acc : Nat × KeySpace) k =>
      if ksContains acc.2 k then (acc.1 + 1, ksDel acc.2 k) else acc)
    (0, sys.ks)
  (.ret (.pyint res.1), { sys with ks := res.2 })

/-- `multi_handler` (`misc_command.py:250`). -/
def multi_handler (_now : ℚ) (_argv : List ByteS) (sys : Sys) : HOut × Sys :=
  if sys.stat = CStat.multi then
    (.raiseE (.cmdError "ERR" "MULTI calls can not be nested"), sys)
  else (.ret (.pybool true), { sys with stat := .multi })

/-- Dispatch outcome: a serialized reply written to the wire, or an
exception escaping `exec_command`. -/
inductive DOut where
  | reply (r : Reply)
  | exc (e : PyExc)

/-- The reply coercion of `RedisServerMixin.command.__wrapper`
(`redis/server/server.py:46`): `True` → simple `OK`; other ints (including
`False`, a Python `int`) → integer reply; a list → array; `None` → nil bulk.
A raw `bytes` return value matches none of the `isinstance` branches and
reaches the uncaught `raise ValueError` at `server.py:61`. -/
def coerceToDOut : PyVal → DOut
  | .pybool true => .reply (.simple (bs "OK"))
  | .pybool false => .reply (.int 0)
  | .pyint n => .reply (.int n)
  | .pyreplies rs => .reply (.array rs)
  | .pynone => .reply (.bulk none)
  | .pybytes _ => .exc (.pyerr "ValueError")

/-- Arity predicates registered with `server.command` (`nargs`): an exact
count or `nargs_greater_equal`. -/
inductive NArity where
  | exact (n : Nat)
  | atLeast (n : Nat)
  deriving DecidableEq, Repr

/-- The registry of the commands modelled here, with the registered `nargs`
(the sources are `redis/server/command/string_command.py`,
`redis/server/command/list_command.py` and
`redis/server_impl/misc_command.py`). -/
def cmdTable : List (ByteS × NArity) :=
  [(bs "get", .exact 1), (bs "set", .atLeast 2), (bs "setbit", .exact 3),
   (bs "getbit", .exact 2), (bs "setrange", .exact 3), (bs "strlen", .exact 1),
   (bs "linsert", .exact 4), (bs "del", .atLeast 1), (bs "multi", .exact 0),
   (bs "exec", .exact 0)]

/-- Registry lookup by lower-cased command name. -/
def findArity (cmd : ByteS) : Option NArity := cmdTable.lookup cmd

/-- The arity predicate applied to `len(argv) - 1`. -/
def arityOk : NArity → Nat → Bool
  | .exact n, m => m == n
  | .atLeast n, m => decide (n ≤ m)

/-- The wrong-number-of-arguments message of `server.py:38`. -/
def wrongArgsMsg (cmd : ByteS) : String :=
  "wrong number of arguments for \x27" ++ asString cmd ++ "\x27 command"

/-- The unknown-command message of `server.py:75`. -/
def unknownCmdMsg (cmd : ByteS) : String :=
  "unknown command \x27" ++ asString cmd ++ "\x27"

/-- Outcome of the EXEC loop over the queued commands. -/
inductive RunQ where
  | ok (rs : List Reply)
  | fail (e : PyExc)

/-- The loop of `exec_handler` (`misc_command.py:272`): run each queued
command through `client.exec_command` in insertion order, collecting the
individual (already serialized) replies.  An exception escaping a dispatch
aborts the loop, keeping the keyspace mutations already performed. -/
def runQueueWith (step : List ByteS → Sys → DOut × Sys) :
    List (List ByteS) → Sys → RunQ × Sys
  | [], sys => (.ok [], sys)
  | a :: rest, sys =>
    match step a sys with
    | (.reply r, sys1) =>
      (match runQueueWith step rest sys1 with
       | (.ok rs, sys2) => (.ok (r :: rs), sys2)
       | (.fail e, sys2) => (.fail e, sys2))
    | (.exc e, sys1) => (.fail e, sys1)

/-- `exec_handler` (`misc_command.py:263`): abort unless in MULTI mode; run
the queued commands in order; only on completion clear the queue and leave
MULTI mode, returning the list of replies. -/
def exec_handler (step : List ByteS → Sys → DOut × Sys) (_argv : List ByteS) (sys : Sys) :
    HOut × Sys :=
  if sys.stat ≠ CStat.multi then
    (.raiseE (.cmdError "ERR" "EXEC without MULTI"), sys)
  else
    match runQueueWith step sys.queue sys with
    | (.ok rs, sys1) => (.ret (.pyreplies rs), { sys1 with queue := [], stat := .normal })
    | (.fail e, sys1) => (.raiseE e, sys1)

/-- One level of `RedisServerMixin.exec_command` plus the registration
wrapper (`server.py:31`): unknown command raises `CommandNotFoundError`; the
arity check runs BEFORE the `try` block, so its `CommandError` escapes; the
handler body runs inside the `try`, whose `except` clauses convert
`CommandNotFoundError` and `CommandError` into error replies; any other
exception escapes.  `prev` is the dispatch available to a nested EXEC. -/
def execCmdStep (prev : ℚ → List ByteS → Sys → DOut × Sys) (now : ℚ)
    (argv : List ByteS) (sys : Sys) : DOut × Sys :=
  match argv with
  | [] => (.exc (.pyerr "IndexError"), sys)
  | c :: _ =>
    let cmd := lowerB c
    match findArity cmd with
    | none => (.exc (.notFound (unknownCmdMsg cmd)), sys)
    | some na =>
      if !arityOk na (argv.length - 1) then
        (.exc (.cmdError "ERR" (wrongArgsMsg cmd)), sys)
      else
        let hr : HOut × Sys :=
          if cmd = bs "exec" then exec_handler (prev now) argv sys
          else if cmd = bs "get" then get_handler now argv sys
          else if cmd = bs "set" then set_handler now argv sys
          else if cmd = bs "setbit" then setbit_handler now argv sys
          else if cmd = bs "getbit" then getbit_handler now argv sys
          else if cmd = bs "setrange" then setrange_handler now argv sys
          else if cmd = bs "strlen" then strlen_handler now argv sys
          else if cmd = bs "linsert" then linsert now argv sys
          else if cmd = bs "del" then del_handler now argv sys
          else multi_handler now argv sys
        match hr with
        | (.ret v, sys1) => (coerceToDOut v, sys1)
        | (.raiseE (.cmdError k m), sys1) => (.reply (.error k m), sys1)
        | (.raiseE (.notFound m), sys1) => (.reply (.error "ERR" m), sys1)
        | (.raiseE e, sys1) => (.exc e, sys1)

/-- The dispatch entry point, indexed by a recursion-depth fuel modelling
the CPython stack limit (a nested EXEC consumes one unit). -/
def execCmdF : Nat → ℚ → List ByteS → Sys → DOut × Sys
  | 0 => fun _ _ sys => (.exc (.pyerr "RecursionError"), sys)
  | f + 1 => execCmdStep (execCmdF f)

/-- The CRLF terminator. -/
def crlf : ByteS := [13, 10]

mutual

/-- `resp_dumps` / `to_resp` (`redis/common/proto.py:224`): serialize a
typed reply to RESP wire bytes. -/
def resp_dumps : Reply → ByteS
  | .simple s => 43 :: (s ++ crlf)
  | .error k m => 45 :: (bs (k ++ " " ++ m) ++ crlf)
  | .int n => 58 :: (intToBytes n ++ crlf)
  | .bulk none => bs "$-1" ++ crlf
  | .bulk (some b) => 36 :: (natToBytes b.length ++ crlf ++ b ++ crlf)
  | .array rs => 42 :: (natToBytes rs.length ++ crlf ++ resp_dumps_list rs)

/-- Concatenated serialization of array elements. -/
def resp_dumps_list : List Reply → ByteS
  | [] => []
  | r :: rs => resp_dumps r ++ resp_dumps_list rs

end

/-- `io.BytesIO.readline()`: read up to and including the next newline
byte; at end of stream return the empty string. -/
def readlineB : ByteS → ByteS × ByteS
  | [] => ([], [])
  | c :: r =>
    if c = 10 then ([c], r)
    else
      let p := readlineB r
      (c :: p.1, p.2)

/-- `io.BytesIO.read(n)`: read up to `n` bytes (a negative `n` reads the
whole rest of the stream). -/
def readNB (n : Int) (b : ByteS) : ByteS × ByteS :=
  if n < 0 then (b, []) else (b.take n.toNat, b.drop n.toNat)

/-- Python `bytes.split` at a single space byte: split at every space, keeping
empty fields. -/
def splitSpaceAux : ByteS → ByteS → List ByteS
  | [], cur => [cur.reverse]
  | c :: r, cur =>
    if c = 32 then cur.reverse :: splitSpaceAux r [] else splitSpaceAux r (c :: cur)

/-- Python `bytes.split` at a single space byte. -/
def splitSpace (b : ByteS) : List ByteS := splitSpaceAux b []

/-- Python slice `b[1:-2]` (drop the leading marker byte and the trailing
CRLF of a RESP line). -/
def sliceOneToMinusTwo (b : ByteS) : ByteS := ((b.drop 1).dropLast).dropLast

mutual

/-- `__resp_loads` (`proto.py:263`): load one object given its first line
`bp` and the remaining buffer.  `none` models the `ValueError` raised on any
malformed input.  Note: there is NO branch for `:` integer replies, the
error branch requires exactly one space in the line and keeps the leading
`-` of the kind and the trailing CRLF of the message. -/
def resp_loads_one (fuel : Nat) (bp buf : ByteS) : Option (Reply × ByteS) :=
  match fuel with
  | 0 => none
  | f + 1 =>
    match bp.head? with
    | some 43 => some (.simple (sliceOneToMinusTwo bp), buf)
    | some 45 =>
      let sps := splitSpace bp
      if sps.length ≠ 2 then none
      else some (.error (asString (sps.getD 0 [])) (asString (sps.getD 1 [])), buf)
    | some 42 =>
      match parsePyInt (sliceOneToMinusTwo bp) with
      | none => none
      | some len => resp_loads_list f len buf []
    | some 36 =>
      match parsePyInt (sliceOneToMinusTwo bp) with
      | none => none
      | some len =>
        let rd := readNB len buf
        let le := readlineB rd.2
        if (rd.1.length : Int) ≠ len ∨ le.1.length ≠ 2 then none
        else some (.bulk (some rd.1), le.2)
    | _ => none

/-- The `while length != 0` element loop of the `*` branch: read a line per
element (an empty line, i.e. EOF, raises `ValueError`); a negative count
never reaches 0 and runs until EOF. -/
def resp_loads_list (fuel : Nat) (len : Int) (buf : ByteS) (acc : List Reply) :
    Option (Reply × ByteS) :=
  match fuel with
  | 0 => none
  | f + 1 =>
    if len = 0 then some (.array acc, buf)
    else
      let p := readlineB buf
      if p.1 = [] then none
      else
        match resp_loads_one f p.1 p.2 with
        | none => none
        | some (r, buf2) => resp_loads_list f (len - 1) buf2 (acc ++ [r])

end

/-- Python `bytes.endswith` with the CRLF terminator. -/
def endsWithCRLF (b : ByteS) : Bool :=
  match b.reverse with
  | 10 :: 13 :: _ => true
  | _ => false

/-- Result of `resp_loads`: a single loaded object, a Python list of several
loaded objects, or the `ValueError` escaping the call. -/
inductive LoadOut where
  | one (r : Reply)
  | many (rs : List Reply)
  | valueError

/-- The top-level line loop of `resp_loads` (`proto.py:251`). -/
def resp_loads_top (fuel : Nat) (buf : ByteS) (acc : List Reply) : Option (List Reply) :=
  match fuel with
  | 0 => none
  | f + 1 =>
    let p := readlineB buf
    if p.1 = [] then some acc
    else
      match resp_loads_one f p.1 p.2 with
      | none => none
      | some (r, buf2) => resp_loads_top f buf2 (acc ++ [r])

/-- `resp_loads` (`proto.py:241`): require a CRLF-terminated input, load
objects line by line, unwrap a singleton result. -/
def resp_loads (raw : ByteS) : LoadOut :=
  if !endsWithCRLF raw then .valueError
  else
    match resp_loads_top (raw.length + 2) raw [] with
    | none => .valueError
    | some [r] => .one r
    | some rs => .many rs

/-- Outcome of `BulkProtocolParser.get_argvalue`: the argv list, a
`ProtocolError`, or a raw Python exception escaping the parse. -/
inductive BulkOut where
  | ok (argv : List ByteS)
  | protoErr (msg : String)
  | pyexc (nm : String)
  deriving DecidableEq, Repr

/-- Python `bytes.rstrip` of CRLF: strip all trailing CR and LF bytes. -/
def rstripCRLF (b : ByteS) : ByteS :=
  (b.reverse.dropWhile (fun c => c == 13 || c == 10)).reverse

/-- Lowercase hex rendering of a byte (Python percent-x formatting). -/
def hexStr (n : Nat) : String := String.mk (Nat.toDigits 16 n)

/-- The `for i in range(array_length)` loop of
`BulkProtocolParser.get_argvalue` (`proto.py:343`): per argument, read the
`$<L>` line (a non-`$` start is a `ProtocolError`, though formatting that
message for an empty line at EOF itself raises `IndexError`; an unparsable
length is a `ProtocolError` with message `Invalid length`), then read the payload.  The
following check `if len(arg) != length` references the undefined name
`length` (`proto.py:353`), so every iteration that reaches it raises
`NameError`; the rest of the loop body is unreachable. -/
def bulk_read_args : Nat → ByteS → List ByteS → BulkOut
  | 0, _, acc => .ok acc.reverse
  | _ + 1, st, _ =>
    let p := readlineB st
    let lenline := p.1
    if lenline.head? = some 36 then
      match parsePyInt (lenline.drop 1) with
      | none => .protoErr "Invalid length"
      | some len =>
        let _rd := readNB len p.2
        .pyexc "NameError"
    else
      match lenline.head? with
      | none => .pyexc "IndexError"
      | some b => .protoErr ("expected \x27$\x27, got \x27\\x" ++ hexStr b ++ "\x27")

/-- `BulkProtocolParser.get_argvalue` (`proto.py:333`): strip the CRLF of
the first line; on a `*` line parse the count (an unparsable count raises a
plain `ValueError` from `int()`) and run the argument loop (a count ≤ 0
skips the loop and returns the empty argv); a non-`*` first line falls
through to `return argv` with `argv` unbound, raising `NameError`. -/
def bulk_get_argvalue (beginline : ByteS) (st : ByteS) : BulkOut :=
  let line := rstripCRLF beginline
  if line.head? = some 42 then
    match parsePyInt (line.drop 1) with
    | none => .pyexc "ValueError"
    | some n => if n ≤ 0 then .ok [] else bulk_read_args n.toNat st []
  else .pyexc "NameError"

/-- A byte string of `n` bytes yields `8 * n` bits. -/
theorem bytesToBits_length (b : ByteS) : (bytesToBits b).length = 8 * b.length := by
  induction b with
  | nil => rfl
  | cons c t ih =>
    simp only [bytesToBits, List.length_append, List.length_cons, ih, byteToBits,
      List.length_nil]
    ring

/-- Indexing at or beyond the length (with a non-negative index) raises
`IndexError`. -/
theorem pyBitGet_none_of_ge (l : List Bool) (i : Int) (h0 : 0 ≤ i)
    (h : (l.length : Int) ≤ i) : pyBitGet l i = none := by
  unfold pyBitGet
  split_ifs with h1 h2
  · omega
  · omega
  · rfl

/-- Empty keyspace, NORMAL client. -/
def sys0 : Sys := { ks := [], stat := .normal, queue := [] }

/-- **C2, failing input.**  The encoder maps the integer reply `5` to
`:5\r\n`, but `__resp_loads` has no branch for `:` lines, so decoding the
encoder output raises `ValueError` instead of returning the original value:
`resp_loads` is not the inverse of `resp_dumps` on integer replies. -/
theorem resp_loads_dumps_int_fails :
    resp_dumps (.int 5) = bs ":5\r\n" ∧
    resp_loads (resp_dumps (.int 5)) = .valueError := by
  constructor
  · rfl
  · rfl

/-- **C3, failing input.**  On the well-formed request `*1\r\n$3\r\nfoo\r\n`
the claim requires `argv = [b"foo"]`, and on a short read it requires a
`ProtocolError`; instead `BulkProtocolParser.get_argvalue` raises
`NameError`, because the check `if len(arg) != length` (`proto.py:353`)
references the undefined name `length` (the parsed length lives in
`arg_length`).  Every array-of-bulk-strings request with at least one
argument fails this way. -/
theorem bulk_get_argvalue_nameerror :
    bulk_get_argvalue (bs "*1\r\n") (bs "$3\r\nfoo\r\n") = .pyexc "NameError" ∧
    BulkOut.pyexc "NameError" ≠ .ok [bs "foo"] := by
  constructor
  · rfl
  · intro h
    exact BulkOut.noConfusion h

/-- Keyspace holding the three-byte string `abc` at key `k`. -/
def sysAbc : Sys := { ks := [(bs "k", ⟨.str (bs "abc"), none⟩)], stat := .normal, queue := [] }

/-- **C6, failing input.**  `SETBIT k 0 1` on an absent key `k`: the grow
condition `len(ba) < offset` (`string_command.py:349`) does not fire when
the offset equals the current bit length (here both are 0), so the
assignment `ba[offset] = value` raises an uncaught `IndexError` — the claim
requires the write to succeed for every offset below `2^32`.  The empty
string object stored for the absent key remains in the keyspace. -/
theorem setbit_offset_eq_len_indexerror :
    setbit_handler 0 [bs "setbit", bs "k", bs "0", bs "1"] sys0 =
      (.raiseE (.pyerr "IndexError"), { sys0 with ks := [(bs "k", ⟨.str [], none⟩)] }) := by
  rfl

/-- **C7, failing input.**  `SETRANGE k 0 X` with `k` holding `abc`: the
claim (Redis semantics) requires the result `Xbc` of length 3 — preserve
`[0, 0)`, overlay `X`, keep the suffix; the code computes
`stor_value[0:offset + 1] + value = aX` of length 2
(`string_command.py:437`), keeping one byte of the old prefix too many and
dropping the old suffix. -/
theorem setrange_keeps_extra_prefix_byte :
    setrange_handler 0 [bs "setrange", bs "k", bs "0", bs "X"] sysAbc =
      (.ret (.pyint 2), { sysAbc with ks := [(bs "k", ⟨.str (bs "aX"), none⟩)] }) ∧
    bs "aX" ≠ bs "Xbc" := by
  constructor
  · rfl
  · intro h
    exact absurd (congrArg List.length h) (by decide)

/-- Keyspace holding the one-element list `[a]` at key `k`. -/
def sysLa : Sys := { ks := [(bs "k", ⟨.list [bs "a"], none⟩)], stat := .normal, queue := [] }

/-- **C8, failing input.**  `LINSERT k BEFORE b x` with `k` holding the list
`[a]` (pivot `b` absent): the claim — and the handler docstring
(`list_command.py:356`) — require the integer reply -1; the code catches the
`ValueError` of `list.index` and returns `None`, i.e. a nil reply
(`list_command.py:381`). -/
theorem linsert_pivot_absent_returns_nil :
    linsert 0 [bs "linsert", bs "k", bs "BEFORE", bs "b", bs "x"] sysLa =
      (.ret .pynone, sysLa) ∧
    HOut.ret .pynone ≠ .ret (.pyint (-1)) := by
  constructor
  · rfl
  · intro h
    cases h

/-- Keyspace holding string values at the keys `del` and `a`. -/
def sysDel : Sys :=
  { ks := [(bs "del", ⟨.str (bs "v"), none⟩), (bs "a", ⟨.str (bs "w"), none⟩)],
    stat := .normal, queue := [] }

/-- **C9, failing input.**  `DEL a` with the keyspace `{del ↦ v, a ↦ w}`:
the claim requires reply 1 and the entry `del` (not an argument) untouched;
`del_handler` iterates over all of `argv` including `argv[0] = b"del"`
(`misc_command.py:23`), so it also deletes the key `del` and replies 2. -/
theorem del_handler_deletes_command_name :
    del_handler 0 [bs "del", bs "a"] sysDel = (.ret (.pyint 2), { sysDel with ks := [] }) ∧
    (2 : Int) ≠ 1 := by
  constructor
  · rfl
  · decide

/-- Keyspace after `SET k world EX 0` issued at time 0: the value carries
the already-elapsed absolute expiry 0. -/
def sysExp : Sys := { ks := [(bs "k", ⟨.str (bs "world"), some 0⟩)], stat := .normal, queue := [] }

/-- **C1, counterexample.**  At time 0, `SET k world EX 0` stores `world`
with absolute expiry 0 (first conjunct).  At any later time (here 1) the
claim requires that no command observes the value — in particular `STRLEN k`
would have to behave as on an absent key and reply 0; instead
`strlen_handler` consults only plain dict membership, never expiry, and
replies 5, the length of the expired value. -/
theorem strlen_observes_expired_value :
    (set_handler 0 [bs "set", bs "k", bs "world", bs "ex", bs "0"] sys0).2 = sysExp ∧
    strlen_handler 1 [bs "strlen", bs "k"] sysExp = (.ret (.pyint 5), sysExp) ∧
    HOut.ret (.pyint 5) ≠ .ret (.pyint 0) := by
  refine ⟨?_, rfl, by simp⟩
  have h0 : parsePyInt (bs "0") = some 0 := rfl
  have hw : parsePyInt (bs "world") = none := rfl
  simp only [set_handler, setOptsLoop, setCanonical, h0, hw, Option.getD_none, Int.cast_zero,
    add_zero]
  simp +decide [sys0, sysExp, ksSet, ksContains, ksGet]

/-- **C1 (amended), theorem.**  A `GET` of a key holding an expired value
returns nil and removes the entry from the keyspace before reporting the key
absent; but `STRLEN` (like the other non-`GET` string commands in this
module) does not consult expiry and observes the stored value. -/
theorem expired_lookup_amended (now : ℚ) (k : ByteS) (sys : Sys) (b : ByteS) (e : ℚ)
    (hk : ksGet sys.ks k = some ⟨.str b, some e⟩) (he : e < now) :
    get_handler now [bs "get", k] sys = (.ret .pynone, { sys with ks := ksDel sys.ks k }) ∧
    strlen_handler now [bs "strlen", k] sys = (.ret (.pyint b.length), sys) := by
  constructor
  · unfold get_handler
    simp only [List.getD_cons_succ, List.getD_cons_zero, hk, nodeExpired]
    simp [he]
  · unfold strlen_handler
    simp only [List.getD_cons_succ, List.getD_cons_zero, hk]

/-- **C1 (amended), witness.**  The expired entry of `sysExp`, looked up at
time 1: `GET` replies nil and deletes it, `STRLEN` still replies 5. -/
theorem expired_lookup_amended_witness :
    get_handler 1 [bs "get", bs "k"] sysExp = (.ret .pynone, { sysExp with ks := [] }) ∧
    strlen_handler 1 [bs "strlen", bs "k"] sysExp = (.ret (.pyint 5), sysExp) :=
  expired_lookup_amended 1 (bs "k") sysExp (bs "world") 0 rfl (by decide)

/-- Dispatching `EXEC` reduces to the wrapped `exec_handler` call (the
registry lookup, arity check and command-name comparisons are closed). -/
theorem execCmdStep_exec (prev : ℚ → List ByteS → Sys → DOut × Sys) (now : ℚ) (sys : Sys) :
    execCmdStep prev now [bs "exec"] sys =
      (match exec_handler (prev now) [bs "exec"] sys with
       | (.ret v, sys1) => (coerceToDOut v, sys1)
       | (.raiseE (.cmdError k m), sys1) => (.reply (.error k m), sys1)
       | (.raiseE (.notFound m), sys1) => (.reply (.error "ERR" m), sys1)
       | (.raiseE e, sys1) => (.exc e, sys1)) := rfl

/-- A successful EXEC loop yields one reply per queued command. -/
theorem runQueueWith_ok_length (step : List ByteS → Sys → DOut × Sys) :
    ∀ (q : List (List ByteS)) (sys : Sys) (rs : List Reply) (sys1 : Sys),
      runQueueWith step q sys = (.ok rs, sys1) → rs.length = q.length := by
  intro q
  induction q with
  | nil =>
    intro sys rs sys1 h
    simp only [runQueueWith, Prod.mk.injEq, RunQ.ok.injEq] at h
    simp [← h.1]
  | cons a rest ih =>
    intro sys rs sys1 h
    unfold runQueueWith at h
    rcases h1 : step a sys with ⟨d, sysa⟩
    simp only [h1] at h
    cases d with
    | exc e => simp at h
    | reply r =>
      rcases h2 : runQueueWith step rest sysa with ⟨q2, sysb⟩
      simp only [h2] at h
      cases q2 with
      | fail e => simp at h
      | ok rs2 =>
        simp only [Prod.mk.injEq, RunQ.ok.injEq] at h
        have := ih sysa rs2 sysb h2
        simp [← h.1, this]

/-- **C4 (amended), theorem.**  When every queued dispatch completes without
an escaping exception — in particular, every `CommandError` raised inside a
queued command HANDLER is converted by the registration wrapper into an
error reply that stands as its own element — `EXEC` replies with the array
of the per-command replies computed in insertion order (one per queued
command, state threaded left to right), empties the queue and returns to
NORMAL mode. -/
theorem exec_handler_runs_queue (f : Nat) (now : ℚ) (sys : Sys) (rs : List Reply) (sys1 : Sys)
    (hm : sys.stat = CStat.multi)
    (hq : runQueueWith (execCmdF f now) sys.queue sys = (.ok rs, sys1)) :
    execCmdF (f + 1) now [bs "exec"] sys =
      (.reply (.array rs), { sys1 with queue := [], stat := .normal }) ∧
    rs.length = sys.queue.length := by
  constructor
  · have h1 : execCmdF (f + 1) now [bs "exec"] sys = execCmdStep (execCmdF f) now [bs "exec"] sys := rfl
    rw [h1, execCmdStep_exec]
    unfold exec_handler
    rw [hm]
    simp only [ne_eq, not_true_eq_false, if_false, hq]
    rfl
  · exact runQueueWith_ok_length (execCmdF f now) sys.queue sys rs sys1 hq

/-- MULTI-mode client with the queue `SET a 1`; `SET b 2 NX XX` (a command
whose handler raises a `CommandError`); `STRLEN a`. -/
def sysW : Sys :=
  { ks := [], stat := .multi,
    queue := [[bs "set", bs "a", bs "1"], [bs "set", bs "b", bs "2", bs "nx", bs "xx"],
              [bs "strlen", bs "a"]] }

/-- **C4 (amended), witness.**  `EXEC` on `sysW`: the queued syntax error
becomes the second array element, the commands around it still execute (the
third element reads the value written by the first), the queue empties and
the client leaves MULTI mode. -/
theorem exec_handler_runs_queue_witness :
    execCmdF 3 0 [bs "exec"] sysW =
      (.reply (.array [.simple (bs "OK"), .error "ERR" "syntax error", .int 1]),
       { ks := [(bs "a", ⟨.str [49], none⟩)], stat := .normal, queue := [] }) ∧
    ([Reply.simple (bs "OK"), .error "ERR" "syntax error", .int 1].length = sysW.queue.length) :=
  exec_handler_runs_queue 2 0 sysW
    [.simple (bs "OK"), .error "ERR" "syntax error", .int 1]
    { ks := [(bs "a", ⟨.str [49], none⟩)], stat := .multi, queue := sysW.queue }
    rfl rfl

/-- MULTI-mode client whose queue holds the wrong-arity command `GET` (no
argument). -/
def sysX : Sys := { ks := [], stat := .multi, queue := [[bs "get"]] }

/-- **C4, counterexample.**  The arity check of the registration wrapper
runs BEFORE its `try` block (`server.py:35`), so the `CommandError` it
raises for a queued wrong-arity command escapes `exec_handler`: `EXEC` on
`sysX` replies with that single error instead of an array, the queue is not
cleared and the client STAYS in MULTI mode — the claim requires an array
reply with the error as an element and an exit from MULTI mode. -/
theorem exec_aborts_on_queued_arity_error :
    execCmdF 3 0 [bs "exec"] sysX =
      (.reply (.error "ERR" "wrong number of arguments for \x27get\x27 command"), sysX) ∧
    sysX.stat = CStat.multi ∧ sysX.queue = [[bs "get"]] := by
  refine ⟨rfl, rfl, rfl⟩

/-- The rational value of a byte-string integer argument (0 as a junk value
when unparsable; the lemmas below only use it where parsing succeeded). -/
def pyIntQ (b : ByteS) : ℚ := ((parsePyInt b).getD 0 : Int)

/-- The total expiry delta contributed by the `EX`/`PX` options of a SET
argument list: `int(arg)` seconds per `EX`, `int(arg) / 1000` seconds per
`PX`. -/
def sumDeltas : List ByteS → ℚ
  | [] => 0
  | a :: rest =>
    if lowerB a = bs "ex" then
      match rest with
      | [] => 0
      | s :: r => pyIntQ s + sumDeltas r
    else if lowerB a = bs "px" then
      match rest with
      | [] => 0
      | s :: r => pyIntQ s / 1000 + sumDeltas r
    else sumDeltas rest

/-- `sumDeltas` ignores an option that is neither `EX` nor `PX`. -/
theorem sumDeltas_skip (a : ByteS) (rest : List ByteS)
    (hex : ¬lowerB a = bs "ex") (hpx : ¬lowerB a = bs "px") :
    sumDeltas (a :: rest) = sumDeltas rest := by
  rw [sumDeltas.eq_def]
  simp [hex, hpx]

/-- `sumDeltas` counts an `EX` pair. -/
theorem sumDeltas_ex (a s : ByteS) (r : List ByteS) (hex : lowerB a = bs "ex") :
    sumDeltas (a :: s :: r) = pyIntQ s + sumDeltas r := by
  rw [sumDeltas.eq_def]
  simp [hex]

/-- `sumDeltas` counts a `PX` pair. -/
theorem sumDeltas_px (a s : ByteS) (r : List ByteS)
    (hex : ¬lowerB a = bs "ex") (hpx : lowerB a = bs "px") :
    sumDeltas (a :: s :: r) = pyIntQ s / 1000 + sumDeltas r := by
  rw [sumDeltas.eq_def]
  simp [hpx]
  intro hc
  rw [← hpx] at hc
  exact absurd hc hex

/-- Once the expiry accumulator is initialised to `acc`, a successful option
parse returns `acc` plus the sum of all remaining `EX`/`PX` deltas. -/
theorem setOptsLoop_some_acc (now : ℚ) :
    ∀ (n : Nat) (opts : List ByteS), opts.length ≤ n →
    ∀ (acc : ℚ) (nx xx : Bool) (e : Option ℚ) (nx2 xx2 : Bool),
      setOptsLoop now opts (some acc) nx xx = .ok e nx2 xx2 →
      e = some (acc + sumDeltas opts) := by
  intro n
  induction n with
  | zero =>
    intro opts hlen acc nx xx e nx2 xx2 h
    have hnil : opts = [] := List.eq_nil_of_length_eq_zero (Nat.le_zero.mp hlen)
    subst hnil
    simp only [setOptsLoop, SetOptsOut.ok.injEq] at h
    simp [← h.1, sumDeltas]
  | succ m ih =>
    intro opts hlen acc nx xx e nx2 xx2 h
    cases opts with
    | nil =>
      simp only [setOptsLoop, SetOptsOut.ok.injEq] at h
      simp [← h.1, sumDeltas]
    | cons a rest =>
      unfold setOptsLoop at h
      split at h
      · rename_i hex
        split at h
        · exact SetOptsOut.noConfusion h
        · rename_i s r
          split at h
          · exact SetOptsOut.noConfusion h
          · rename_i kk hp
            simp only [Option.getD_some] at h
            have hr : r.length ≤ m := by
              simp only [List.length_cons] at hlen
              omega
            have hrec := ih r hr (acc + (kk : ℚ)) nx xx e nx2 xx2 h
            rw [hrec, sumDeltas_ex a s r hex]
            simp only [pyIntQ, hp, Option.getD_some]
            rw [add_assoc]
      · rename_i hex
        split at h
        · rename_i hpx
          split at h
          · exact SetOptsOut.noConfusion h
          · rename_i s r
            split at h
            · exact SetOptsOut.noConfusion h
            · rename_i kk hp
              simp only [Option.getD_some] at h
              have hr : r.length ≤ m := by
                simp only [List.length_cons] at hlen
                omega
              have hrec := ih r hr (acc + (kk : ℚ) / 1000) nx xx e nx2 xx2 h
              rw [hrec, sumDeltas_px a s r hex hpx]
              simp only [pyIntQ, hp, Option.getD_some]
              rw [add_assoc]
        · rename_i hpx
          split at h
          · rename_i hnx
            have hr : rest.length ≤ m := by
              simp only [List.length_cons] at hlen
              omega
            have hrec := ih rest hr acc true xx e nx2 xx2 h
            rw [hrec, sumDeltas_skip a rest hex hpx]
          · rename_i hnx
            split at h
            · rename_i hxx
              have hr : rest.length ≤ m := by
                simp only [List.length_cons] at hlen
                omega
              have hrec := ih rest hr acc nx true e nx2 xx2 h
              rw [hrec, sumDeltas_skip a rest hex hpx]
            · exact SetOptsOut.noConfusion h

/-- A successful option parse that starts with no expiry accumulator and
ends with one has initialised it to the baseline `now` at the first `EX` or
`PX` and added every delta: the resulting expiry is `now + sumDeltas opts`. -/
theorem setOptsLoop_none_sum (now : ℚ) :
    ∀ (n : Nat) (opts : List ByteS), opts.length ≤ n →
    ∀ (nx xx : Bool) (t : ℚ) (nx2 xx2 : Bool),
      setOptsLoop now opts none nx xx = .ok (some t) nx2 xx2 →
      t = now + sumDeltas opts := by
  intro n
  induction n with
  | zero =>
    intro opts hlen nx xx t nx2 xx2 h
    have hnil : opts = [] := List.eq_nil_of_length_eq_zero (Nat.le_zero.mp hlen)
    subst hnil
    simp [setOptsLoop] at h
  | succ m ih =>
    intro opts hlen nx xx t nx2 xx2 h
    cases opts with
    | nil => simp [setOptsLoop] at h
    | cons a rest =>
      unfold setOptsLoop at h
      split at h
      · rename_i hex
        split at h
        · exact SetOptsOut.noConfusion h
        · rename_i s r
          split at h
          · exact SetOptsOut.noConfusion h
          · rename_i kk hp
            simp only [Option.getD_none] at h
            have hrec := setOptsLoop_some_acc now r.length r le_rfl (now + (kk : ℚ)) nx xx
              (some t) nx2 xx2 h
            simp only [Option.some.injEq] at hrec
            rw [hrec, sumDeltas_ex a s r hex]
            simp only [pyIntQ, hp, Option.getD_some]
            rw [add_assoc]
      · rename_i hex
        split at h
        · rename_i hpx
          split at h
          · exact SetOptsOut.noConfusion h
          · rename_i s r
            split at h
            · exact SetOptsOut.noConfusion h
            · rename_i kk hp
              simp only [Option.getD_none] at h
              have hrec := setOptsLoop_some_acc now r.length r le_rfl (now + (kk : ℚ) / 1000)
                nx xx (some t) nx2 xx2 h
              simp only [Option.some.injEq] at hrec
              rw [hrec, sumDeltas_px a s r hex hpx]
              simp only [pyIntQ, hp, Option.getD_some]
              rw [add_assoc]
        · rename_i hpx
          split at h
          · rename_i hnx
            have hr : rest.length ≤ m := by
              simp only [List.length_cons] at hlen
              omega
            have hrec := ih rest hr true xx t nx2 xx2 h
            rw [hrec, sumDeltas_skip a rest hex hpx]
          · rename_i hnx
            split at h
            · rename_i hxx
              have hr : rest.length ≤ m := by
                simp only [List.length_cons] at hlen
                omega
              have hrec := ih rest hr nx true t nx2 xx2 h
              rw [hrec, sumDeltas_skip a rest hex hpx]
            · exact SetOptsOut.noConfusion h

/-- **C5, theorem.**  `SET key value [opts]`, with the option list parsed
left-to-right by `setOptsLoop`: (1) specifying both `NX` and `XX` yields the
`syntax error` abort; (2) `NX` with an existing key and (3) `XX` with an
absent key return nil and leave the state unchanged; (4) otherwise the value
is stored with the parsed expiry; (5) whenever the parsed expiry is set it
equals the current time plus the sum of the `EX` deltas (seconds) and `PX`
deltas (milliseconds / 1000) of the option list. -/
theorem set_handler_C5 (now : ℚ) (k v : ByteS) (opts : List ByteS) (sys : Sys)
    (e : Option ℚ) (nx xx : Bool)
    (hp : setOptsLoop now opts none false false = .ok e nx xx) :
    ((nx && xx) = true →
      set_handler now (bs "set" :: k :: v :: opts) sys =
        (.raiseE (.cmdError "ERR" "syntax error"), sys)) ∧
    (nx = true → xx = false → ksContains sys.ks k = true →
      set_handler now (bs "set" :: k :: v :: opts) sys = (.ret .pynone, sys)) ∧
    (xx = true → nx = false → ksContains sys.ks k = false →
      set_handler now (bs "set" :: k :: v :: opts) sys = (.ret .pynone, sys)) ∧
    ((nx && xx) = false → (nx && ksContains sys.ks k) = false →
      (xx && !ksContains sys.ks k) = false →
      set_handler now (bs "set" :: k :: v :: opts) sys =
        (.ret (.pybool true),
         { sys with ks := ksSet sys.ks k ⟨.str (setCanonical v), e⟩ })) ∧
    (∀ t, e = some t → t = now + sumDeltas opts) := by
  unfold set_handler
  simp only [List.getD_cons_succ, List.getD_cons_zero, List.drop_succ_cons, List.drop_zero, hp]
  refine ⟨?_, ?_, ?_, ?_, ?_⟩
  · intro hb
    simp [hb]
  · intro h1 h2 h3
    simp [h1, h2, h3]
  · intro h1 h2 h3
    simp [h1, h2, h3]
  · intro h1 h2 h3
    simp [h1, h2, h3]
  · intro t ht
    rw [ht] at hp
    exact setOptsLoop_none_sum now opts.length opts le_rfl false false t nx xx hp

/-- **C5, witness.**  Concrete instances of each conjunct: `NX XX` together
abort; `NX` on the existing key `k` of `sysAbc` and `XX` on an absent key
return nil without writing; a plain SET stores the value with no expiry; and
with options `EX 10` at time 2 the parsed expiry is 2 + 10 = 12. -/
theorem set_handler_C5_witness :
    set_handler 7 [bs "set", bs "k", bs "v", bs "nx", bs "xx"] sys0 =
      (.raiseE (.cmdError "ERR" "syntax error"), sys0) ∧
    set_handler 7 [bs "set", bs "k", bs "v2", bs "nx"] sysAbc = (.ret .pynone, sysAbc) ∧
    set_handler 7 [bs "set", bs "q", bs "v2", bs "xx"] sys0 = (.ret .pynone, sys0) ∧
    set_handler 7 [bs "set", bs "k", bs "world"] sys0 =
      (.ret (.pybool true), { sys0 with ks := [(bs "k", ⟨.str (bs "world"), none⟩)] }) ∧
    (12 : ℚ) = 2 + sumDeltas [bs "ex", bs "10"] := by
  refine ⟨?_, ?_, ?_, ?_, ?_⟩
  · exact (set_handler_C5 7 (bs "k") (bs "v") [bs "nx", bs "xx"] sys0 none true true rfl).1 rfl
  · exact (set_handler_C5 7 (bs "k") (bs "v2") [bs "nx"] sysAbc none true false rfl).2.1
      rfl rfl rfl
  · exact (set_handler_C5 7 (bs "q") (bs "v2") [bs "xx"] sys0 none false true rfl).2.2.1
      rfl rfl rfl
  · exact (set_handler_C5 7 (bs "k") (bs "world") [] sys0 none false false rfl).2.2.2.1
      rfl rfl rfl
  · have h10 : parsePyInt (bs "10") = some 10 := rfl
    have hp : setOptsLoop 2 [bs "ex", bs "10"] none false false = .ok (some 12) false false := by
      simp +decide [setOptsLoop, h10]
      norm_num
    exact (set_handler_C5 2 (bs "k") (bs "v") [bs "ex", bs "10"] sys0 (some 12) false false
      hp).2.2.2.2 12 rfl

/-- **C10, theorem.**  `GETBIT key offset` with a parsed offset `o ≥ 0`
replies the integer 0 whenever the key is absent (first conjunct) or the
offset is at or beyond the bit length `8 * len` of the stored string value
(second conjunct: the `IndexError` of the out-of-range bitarray index is
caught and 0 returned); and for EVERY argument list the handler leaves the
keyspace and client state unchanged (third conjunct). -/
theorem getbit_C10 (now : ℚ) (k off : ByteS) (o : Int) (sys : Sys) :
    (parsePyInt off = some o → ksGet sys.ks k = none →
      getbit_handler now [bs "getbit", k, off] sys = (.ret (.pyint 0), sys)) ∧
    (∀ b ex, parsePyInt off = some o → 0 ≤ o → ksGet sys.ks k = some ⟨.str b, ex⟩ →
      8 * (b.length : Int) ≤ o →
      getbit_handler now [bs "getbit", k, off] sys = (.ret (.pyint 0), sys)) ∧
    (∀ argv2, (getbit_handler now argv2 sys).2 = sys) := by
  refine ⟨?_, ?_, ?_⟩
  · intro hp hk
    unfold getbit_handler
    simp only [List.getD_cons_succ, List.getD_cons_zero, hp, hk]
  · intro b ex hp h0 hk hlen
    unfold getbit_handler
    simp only [List.getD_cons_succ, List.getD_cons_zero, hp, hk]
    have hnone : pyBitGet (bytesToBits b) o = none := by
      apply pyBitGet_none_of_ge _ _ h0
      rw [bytesToBits_length]
      push_cast
      omega
    simp [hnone]
  · intro argv2
    unfold getbit_handler
    dsimp only
    split
    · rfl
    · split
      · rfl
      · split
        · rfl
        · split <;> rfl

/-- **C10, witness.**  `GETBIT nope 5` on an empty keyspace replies 0;
`GETBIT k 24` with `k` holding the 3-byte (24-bit) string `abc` replies 0;
`GETBIT k x` (unparsable offset, an error reply) leaves the state
unchanged. -/
theorem getbit_C10_witness :
    getbit_handler 0 [bs "getbit", bs "nope", bs "5"] sys0 = (.ret (.pyint 0), sys0) ∧
    getbit_handler 0 [bs "getbit", bs "k", bs "24"] sysAbc = (.ret (.pyint 0), sysAbc) ∧
    (getbit_handler 0 [bs "getbit", bs "k", bs "x"] sysAbc).2 = sysAbc :=
  ⟨(getbit_C10 0 (bs "nope") (bs "5") 5 sys0).1 rfl rfl,
   (getbit_C10 0 (bs "k") (bs "24") 24 sysAbc).2.1 (bs "abc") none rfl (by decide) rfl
     (by decide),
   (getbit_C10 0 (bs "k") (bs "x") 0 sysAbc).2.2 [bs "getbit", bs "k", bs "x"]⟩
